import Mathlib

/-!
Shallow embedding of the series-pipe-system computation of
`src/tabs/pipe_system.py` (`render_pipe_system_tab` and its helpers).

Machine floats are modelled as real numbers, so every algebraic identity
below is exact; Python exceptions are modelled as `Except DomainError`.
The per-segment loss calculator `calculate_pipe_losses` is imported by the
tab from `utils/calculations.py`, which is not among the sources here; it
is modelled from the specification (sections 4.1 to 4.3), as are the
threshold constants of `config/settings.py`.
-/

/-- Error taxonomy of the specification (section 7): physically invalid
input.  The Python sources define no dedicated error class; invalid inputs
surface as raised exceptions (for instance, indexing the first segment of
an empty list), which this embedding represents as `Except.error`. -/
inductive DomainError where
  | emptyChain
  | nonpositiveDiameter
  | negativeFlow
  | nonpositiveReynolds
  deriving DecidableEq

/-- One pipe segment: the dict created in `render_pipe_system_tab`
(src/tabs/pipe_system.py, lines 18 to 36). -/
structure Pipe where
  id : ℤ
  material : String
  diameter : ℝ
  length : ℝ
  elevation_change : ℝ
  has_contraction : Bool
  has_expansion : Bool
  has_curves : Bool
  n_curves : ℕ
  has_valve_gate : Bool
  has_valve_globe : Bool
  has_valve_ball : Bool
  has_valve_check : Bool
  has_tee_through : Bool
  has_tee_branch : Bool
  n_tee_through : ℕ
  n_tee_branch : ℕ

/-- Modelled from the spec: result record of `calculate_pipe_losses`
(`utils/calculations.py`, imported by the tab at line 7 but not among the
sources); exactly the keys the tab reads at lines 89 to 99. -/
structure LossResult where
  V : ℝ
  Re : ℝ
  regime : String
  f : ℝ
  K_total : ℝ
  h_distributed : ℝ
  h_local : ℝ
  h_elevation : ℝ
  h_total : ℝ

/-- Modelled from the spec (section 4.2 and 4.3): the static
material-to-absolute-roughness lookup table consumed by the segment loss
calculator. -/
noncomputable def roughness : String → ℝ
  | "Aço comercial" => 0.000045
  | "PVC" => 0.0000015
  | "Ferro fundido" => 0.00026
  | "Concreto" => 0.001
  | _ => 0.000045

/-- Modelled from the spec (section 4.1): Swamee–Jain explicit
approximation of the Colebrook–White friction factor, used for the
turbulent regime and, by documented policy, the transitional band. -/
noncomputable def swamee_jain (Re rough d : ℝ) : ℝ :=
  0.25 / (Real.logb 10 (rough / (3.7 * d) + 5.74 / Re ^ (0.9 : ℝ))) ^ 2

/-- Modelled from the spec (section 4.1): the Friction Factor Solver.
`Re < 2300` is laminar with `f = 64 / Re` (domain error when `Re ≤ 0`);
`2300 ≤ Re < 4000` is labelled transitional and computed with the
turbulent formula; `Re ≥ 4000` is turbulent. -/
noncomputable def friction_factor (Re rough d : ℝ) : Except DomainError (ℝ × String) :=
  if Re < 2300 then
    if Re ≤ 0 then .error .nonpositiveReynolds
    else .ok (64 / Re, "laminar")
  else if Re < 4000 then .ok (swamee_jain Re rough d, "transitional")
  else .ok (swamee_jain Re rough d, "turbulent")

/-- Modelled from the spec (section 4.2): the Local Loss Aggregator.
Each enabled fitting contributes a fixed table value; counts scale their
coefficient linearly; unset flags contribute zero. -/
noncomputable def aggregate_K (p : Pipe) : ℝ :=
  (if p.has_contraction then 0.5 else 0) +
  (if p.has_expansion then 1.0 else 0) +
  (if p.has_curves then 0.9 * (p.n_curves : ℝ) else 0) +
  (if p.has_valve_gate then 0.2 else 0) +
  (if p.has_valve_globe then 10 else 0) +
  (if p.has_valve_ball then 0.05 else 0) +
  (if p.has_valve_check then 2 else 0) +
  (if p.has_tee_through then 0.6 * (p.n_tee_through : ℝ) else 0) +
  (if p.has_tee_branch then 1.8 * (p.n_tee_branch : ℝ) else 0)

/-- Modelled from the spec (section 4.3):
`calculate_pipe_losses(pipe, flow_rate, rho, mu, g)` of
`utils/calculations.py` (not among the sources).  Area from the diameter,
velocity from the flow rate, Reynolds number, friction factor and regime,
Darcy–Weisbach distributed loss, local loss from the aggregated
coefficient, signed elevation loss, and their sum. -/
noncomputable def calculate_pipe_losses (p : Pipe) (flow_rate rho mu g : ℝ) :
    Except DomainError LossResult :=
  if p.diameter ≤ 0 then .error .nonpositiveDiameter
  else if flow_rate < 0 then .error .negativeFlow
  else
    let A := Real.pi * (p.diameter / 2) ^ 2
    let V := flow_rate / A
    let Re := rho * V * p.diameter / mu
    match friction_factor Re (roughness p.material) p.diameter with
    | .error e => .error e
    | .ok (f, regime) =>
      let h_distributed := f * (p.length / p.diameter) * V ^ 2 / (2 * g)
      let K_total := aggregate_K p
      let h_local := K_total * V ^ 2 / (2 * g)
      let h_elevation := p.elevation_change
      .ok ⟨V, Re, regime, f, K_total, h_distributed, h_local, h_elevation,
           h_distributed + h_local + h_elevation⟩

/-- Per-segment result row appended to `pipe_results`
(src/tabs/pipe_system.py, lines 87 to 100). -/
structure SegmentResult where
  id : ℤ
  V : ℝ
  Re : ℝ
  regime : String
  f : ℝ
  h_distributed : ℝ
  h_local : ℝ
  h_elevation : ℝ
  h_total : ℝ
  P_in : ℝ
  P_out : ℝ
  K_total : ℝ

/-- The row of lines 87 to 100, built from the pipe, the calculator
output and the carried pressure. -/
noncomputable def mk_segment_result (p : Pipe) (c : LossResult) (pin pout : ℝ) :
    SegmentResult :=
  ⟨p.id, c.V, c.Re, c.regime, c.f, c.h_distributed, c.h_local, c.h_elevation,
   c.h_total, pin, pout, c.K_total⟩

/-- The mutable state of the propagation loop
(src/tabs/pipe_system.py, lines 64 to 67). -/
structure ChainState where
  current_pressure : ℝ
  total_head_loss_system : ℝ
  total_length_system : ℝ
  pipe_results : List SegmentResult

/-- Body of the propagation loop (src/tabs/pipe_system.py, lines 80 to
104): compute the segment losses, convert `h_total` to a pressure drop,
record the row, accumulate the totals, advance the carried pressure. -/
noncomputable def step_pipe (flow_rate rho mu g : ℝ) (s : ChainState) (p : Pipe) :
    Except DomainError ChainState :=
  match calculate_pipe_losses p flow_rate rho mu g with
  | .error e => .error e
  | .ok result =>
    let pressure_loss := result.h_total * rho * g
    let pressure_out := s.current_pressure - pressure_loss
    .ok ⟨pressure_out,
         s.total_head_loss_system + result.h_total,
         s.total_length_system + p.length,
         s.pipe_results ++ [mk_segment_result p result s.current_pressure pressure_out]⟩

/-- The chain propagation (src/tabs/pipe_system.py, lines 64 to 104): a
left fold over the ordered segments carrying the running pressure,
initialised to `pressure_inlet`, with both totals at zero and an empty
result list. -/
noncomputable def runChain (pipes : List Pipe) (flow_rate rho mu g pressure_inlet : ℝ) :
    Except DomainError ChainState :=
  pipes.foldlM (step_pipe flow_rate rho mu g) ⟨pressure_inlet, 0, 0, []⟩

/-- Lines 70 to 77: derive the missing half of the flow specification
from the first segment's cross-sectional area.  Returns the pair
`(flow_rate, velocity)` used by the rest of the tab. -/
noncomputable def derive_flow_and_velocity (input_type : String) (flow_rate velocity : ℝ)
    (first_pipe : Pipe) : ℝ × ℝ :=
  if input_type = "Vazão (Q)" then
    (flow_rate, flow_rate / (Real.pi * (first_pipe.diameter / 2) ^ 2))
  else
    (velocity * (Real.pi * (first_pipe.diameter / 2) ^ 2), velocity)

/-- Aggregate result of one run (spec section 3, `SystemResult`),
as handed by lines 106 to 108 to the display helpers. -/
structure SystemResult where
  flow_rate : ℝ
  total_head_loss : ℝ
  total_length : ℝ
  pressure_inlet : ℝ
  pressure_out : ℝ
  results : List SegmentResult

/-- The whole computation of `render_pipe_system_tab`
(src/tabs/pipe_system.py, lines 64 to 108), display stripped.  On an
empty segment list the Python code fails when it indexes the first
segment (line 71) before any result is produced; the spec's error
taxonomy classifies that input as a domain error, and the embedding
returns it as such. -/
noncomputable def render_pipe_system_tab (pipes : List Pipe)
    (rho mu pressure_inlet : ℝ) (input_type : String) (flow_rate velocity g : ℝ) :
    Except DomainError SystemResult :=
  match pipes with
  | [] => .error .emptyChain
  | first_pipe :: _ =>
    let qv := derive_flow_and_velocity input_type flow_rate velocity first_pipe
    match runChain pipes qv.1 rho mu g pressure_inlet with
    | .error e => .error e
    | .ok s =>
      match s.pipe_results.getLast? with
      | none => .error .emptyChain
      | some last =>
        .ok ⟨qv.1, s.total_head_loss_system, s.total_length_system,
             pressure_inlet, last.P_out, s.pipe_results⟩

/-- One advisory finding of the velocity check
(src/tabs/pipe_system.py, lines 170 to 181), structured instead of the
formatted warning string. -/
inductive Finding where
  | belowMin (id : ℤ) (V : ℝ)
  | aboveMax (id : ℤ) (V : ℝ)

/-- The water branch of the per-segment classification
(lines 174 to 178): below minimum first, otherwise above maximum,
otherwise no finding. -/
noncomputable def classify_water (wmin wmax : ℝ) (r : SegmentResult) : Option Finding :=
  if r.V < wmin then some (.belowMin r.id r.V)
  else if r.V > wmax then some (.aboveMax r.id r.V)
  else none

/-- The air branch of the per-segment classification (lines 179 to 181). -/
noncomputable def classify_air (amax : ℝ) (r : SegmentResult) : Option Finding :=
  if r.V > amax then some (.aboveMax r.id r.V) else none

/-- The warnings-list construction of `_display_velocity_warnings`
(src/tabs/pipe_system.py, lines 170 to 182): one pass over the results,
appending a finding per out-of-range segment.  The display calls that
follow in the Python function are presentation and are not part of the
computation.  The threshold constants live in `config/settings.py`, which
is not among the sources, so they are parameters here. -/
noncomputable def velocity_warnings (results : List SegmentResult) (fluid_type : String)
    (wmin wmax amax : ℝ) : List Finding :=
  if fluid_type = "Água" then results.filterMap (classify_water wmin wmax)
  else if fluid_type = "Ar" then results.filterMap (classify_air amax)
  else []

/-- Session-state operations on the segment list
(src/tabs/pipe_system.py, lines 14 to 43). -/
inductive Op where
  | add
  | removeLast

/-- Line 17: the fresh id is one more than the maximal existing id. -/
def next_id (pipes : List Pipe) : ℤ :=
  match pipes.map Pipe.id with
  | [] => 1
  | x :: xs => xs.foldl max x + 1

/-- Lines 18 to 36: the default configuration of a freshly added segment. -/
noncomputable def new_pipe (fresh_id : ℤ) : Pipe :=
  ⟨fresh_id, "Aço comercial", 0.1, 100.0, 0, false, false, false, 0,
   false, false, false, false, false, false, 0, 0⟩

/-- Lines 16 to 37: append a new segment at the end of the list. -/
noncomputable def add_segment (pipes : List Pipe) : List Pipe :=
  pipes ++ [new_pipe (next_id pipes)]

/-- Lines 40 to 43: the remove button pops the last segment and is shown
only when the list has more than one element. -/
noncomputable def remove_last (pipes : List Pipe) : List Pipe :=
  if 1 < pipes.length then pipes.dropLast else pipes

/-- One user action on the segment list. -/
noncomputable def apply_op (pipes : List Pipe) : Op → List Pipe
  | .add => add_segment pipes
  | .removeLast => remove_last pipes

/-! ### Structural lemmas about the propagation fold -/

/-- Recursive characterisation of the rows the loop appends: from a given
carried pressure, each segment contributes one row and hands its outlet
pressure to the next. -/
noncomputable def chain_results (flow_rate rho mu g : ℝ) :
    List Pipe → ℝ → Except DomainError (List SegmentResult)
  | [], _ => .ok []
  | p :: ps, P =>
    match calculate_pipe_losses p flow_rate rho mu g with
    | .error e => .error e
    | .ok c =>
      match chain_results flow_rate rho mu g ps (P - c.h_total * rho * g) with
      | .error e => .error e
      | .ok rs => .ok (mk_segment_result p c P (P - c.h_total * rho * g) :: rs)

/-- The outlet pressure of the last recorded row, or the carried pressure
itself when no row exists. -/
def last_out : ℝ → List SegmentResult → ℝ
  | P, [] => P
  | _, r :: rs => last_out r.P_out rs

/-- The rows form a pressure chain from `P`: each row's inlet is the
carried pressure, its outlet is inlet minus `h_total * rho * g`, and the
rest chains on from that outlet. -/
def chain_ok (rho g : ℝ) : ℝ → List SegmentResult → Prop
  | _, [] => True
  | P, r :: rs => r.P_in = P ∧ r.P_out = r.P_in - r.h_total * rho * g ∧
      chain_ok rho g r.P_out rs

theorem except_error_bind {ε α β : Type} (e : ε) (f : α → Except ε β) :
    (Except.error e >>= f) = Except.error e := rfl

theorem except_ok_bind {ε α β : Type} (a : α) (f : α → Except ε β) :
    (Except.ok a >>= f) = f a := rfl

theorem foldlM_run (flow_rate rho mu g : ℝ) :
    ∀ (pipes : List Pipe) (s0 s : ChainState),
      pipes.foldlM (step_pipe flow_rate rho mu g) s0 = .ok s →
      ∃ rs, chain_results flow_rate rho mu g pipes s0.current_pressure = .ok rs ∧
        s.pipe_results = s0.pipe_results ++ rs ∧
        s.current_pressure = last_out s0.current_pressure rs ∧
        s.total_head_loss_system
          = s0.total_head_loss_system + (rs.map SegmentResult.h_total).sum ∧
        s.total_length_system
          = s0.total_length_system + (pipes.map Pipe.length).sum
  | [], s0, s, h => by
    simp only [List.foldlM_nil, pure, Except.pure, Except.ok.injEq] at h
    exact ⟨[], by simp [chain_results, last_out, ← h]⟩
  | p :: ps, s0, s, h => by
    rw [List.foldlM_cons] at h
    cases hc : calculate_pipe_losses p flow_rate rho mu g with
    | error e => simp [step_pipe, hc, except_error_bind] at h
    | ok c =>
      simp only [step_pipe, hc, except_ok_bind] at h
      obtain ⟨rs, hrs, hres, hcur, hthl, htl⟩ := foldlM_run flow_rate rho mu g ps _ s h
      refine ⟨mk_segment_result p c s0.current_pressure
          (s0.current_pressure - c.h_total * rho * g) :: rs, ?_, ?_, ?_, ?_, ?_⟩
      · simp only [chain_results, hc]
        rw [show s0.current_pressure - c.h_total * rho * g
            = (⟨s0.current_pressure - c.h_total * rho * g,
                s0.total_head_loss_system + c.h_total,
                s0.total_length_system + p.length,
                s0.pipe_results ++ [mk_segment_result p c s0.current_pressure
                  (s0.current_pressure - c.h_total * rho * g)]⟩ : ChainState).current_pressure
            from rfl, hrs]
      · simpa using hres
      · simpa [last_out, mk_segment_result] using hcur
      · simp only [List.map_cons, List.sum_cons, mk_segment_result] at hthl ⊢
        rw [hthl]; ring
      · simp only [List.map_cons, List.sum_cons] at htl ⊢
        rw [htl]; ring

theorem chain_results_ok (flow_rate rho mu g : ℝ) :
    ∀ (pipes : List Pipe) (P : ℝ) (rs : List SegmentResult),
      chain_results flow_rate rho mu g pipes P = .ok rs → chain_ok rho g P rs
  | [], P, rs, h => by
    simp only [chain_results, Except.ok.injEq] at h
    simp [← h, chain_ok]
  | p :: ps, P, rs, h => by
    simp only [chain_results] at h
    cases hc : calculate_pipe_losses p flow_rate rho mu g with
    | error e => simp [hc] at h
    | ok c =>
      simp only [hc] at h
      cases hrest : chain_results flow_rate rho mu g ps (P - c.h_total * rho * g) with
      | error e => simp [hrest] at h
      | ok rs2 =>
        simp only [hrest, Except.ok.injEq] at h
        subst h
        exact ⟨rfl, rfl, chain_results_ok flow_rate rho mu g ps _ rs2 hrest⟩

theorem chain_ok_junction (rho g : ℝ) :
    ∀ (rs : List SegmentResult) (P : ℝ), chain_ok rho g P rs →
      ∀ i : ℕ, (hi : i + 1 < rs.length) → rs[i].P_out = rs[i + 1].P_in
  | [], _, _, i, hi => by simp at hi
  | [_], _, _, i, hi => by simp at hi
  | r :: r2 :: rs, P, h, i, hi => by
    obtain ⟨hin, hout, hrest⟩ := h
    cases i with
    | zero => exact (hrest.1).symm
    | succ j =>
      have := chain_ok_junction rho g (r2 :: rs) r.P_out hrest j (by
        simpa using Nat.succ_lt_succ_iff.mp hi)
      simpa using this

theorem chain_ok_drop (rho g : ℝ) :
    ∀ (rs : List SegmentResult) (P : ℝ), chain_ok rho g P rs →
      ∀ r ∈ rs, r.P_out = r.P_in - r.h_total * rho * g
  | [], _, _, r, hr => by simp at hr
  | r0 :: rs, P, h, r, hr => by
    obtain ⟨hin, hout, hrest⟩ := h
    rcases List.mem_cons.mp hr with h1 | h2
    · subst h1; exact hout
    · exact chain_ok_drop rho g rs r0.P_out hrest r h2

theorem chain_ok_last (rho g : ℝ) :
    ∀ (rs : List SegmentResult) (P : ℝ), chain_ok rho g P rs →
      last_out P rs = P - (rs.map SegmentResult.h_total).sum * rho * g
  | [], P, _ => by simp [last_out]
  | r :: rs, P, h => by
    obtain ⟨hin, hout, hrest⟩ := h
    have ih := chain_ok_last rho g rs r.P_out hrest
    simp only [last_out, List.map_cons, List.sum_cons]
    rw [ih, hout, hin]; ring

theorem chain_ok_monotone (rho g : ℝ) (hrho : 0 ≤ rho) (hg : 0 ≤ g) :
    ∀ (rs : List SegmentResult) (P : ℝ), chain_ok rho g P rs →
      (∀ r ∈ rs, 0 ≤ r.h_total) →
      (∀ r ∈ rs, r.P_out ≤ r.P_in) ∧ last_out P rs ≤ P
  | [], P, _, _ => by simp [last_out]
  | r :: rs, P, h, hnn => by
    obtain ⟨hin, hout, hrest⟩ := h
    have hr0 : 0 ≤ r.h_total := hnn r (List.mem_cons_self r rs)
    have hdrop : 0 ≤ r.h_total * rho * g :=
      mul_nonneg (mul_nonneg hr0 hrho) hg
    have hle : r.P_out ≤ r.P_in := by rw [hout]; linarith
    obtain ⟨ih1, ih2⟩ := chain_ok_monotone rho g hrho hg rs r.P_out hrest
      (fun x hx => hnn x (List.mem_cons_of_mem r hx))
    refine ⟨?_, ?_⟩
    · intro x hx
      rcases List.mem_cons.mp hx with h1 | h2
      · subst h1; exact hle
      · exact ih1 x h2
    · calc last_out P (r :: rs) = last_out r.P_out rs := rfl
        _ ≤ r.P_out := ih2
        _ ≤ r.P_in := hle
        _ = P := hin

theorem last_out_getLast (r : SegmentResult) :
    ∀ (rs : List SegmentResult) (P : ℝ), rs.getLast? = some r →
      last_out P rs = r.P_out
  | [], P, h => by simp at h
  | [r0], P, h => by
    simp only [List.getLast?_singleton, Option.some.injEq] at h
    subst h; rfl
  | r0 :: r1 :: rs, P, h => by
    rw [List.getLast?_cons_cons] at h
    exact last_out_getLast r (r1 :: rs) r0.P_out h

/-- The fields of a row other than the id and the two pressures. -/
def result_core (r : SegmentResult) : ℝ × ℝ × String × ℝ × ℝ × ℝ × ℝ × ℝ × ℝ :=
  (r.V, r.Re, r.regime, r.f, r.K_total, r.h_distributed, r.h_local,
   r.h_elevation, r.h_total)

/-- The same tuple read off a calculator output. -/
def loss_core (c : LossResult) : ℝ × ℝ × String × ℝ × ℝ × ℝ × ℝ × ℝ × ℝ :=
  (c.V, c.Re, c.regime, c.f, c.K_total, c.h_distributed, c.h_local,
   c.h_elevation, c.h_total)

theorem chain_results_core (flow_rate rho mu g : ℝ) :
    ∀ (pipes : List Pipe) (P : ℝ) (rs : List SegmentResult),
      chain_results flow_rate rho mu g pipes P = .ok rs →
      rs.length = pipes.length ∧
      ∀ i : ℕ, (hi : i < pipes.length) →
        ∃ c, calculate_pipe_losses pipes[i] flow_rate rho mu g = .ok c ∧
          (rs.map result_core)[i]? = some (loss_core c)
  | [], P, rs, h => by
    simp only [chain_results, Except.ok.injEq] at h
    subst h
    exact ⟨rfl, fun i hi => by simp at hi⟩
  | p :: ps, P, rs, h => by
    simp only [chain_results] at h
    cases hc : calculate_pipe_losses p flow_rate rho mu g with
    | error e => simp [hc] at h
    | ok c =>
      simp only [hc] at h
      cases hrest : chain_results flow_rate rho mu g ps (P - c.h_total * rho * g) with
      | error e => simp [hrest] at h
      | ok rs2 =>
        simp only [hrest, Except.ok.injEq] at h
        subst h
        obtain ⟨hlen, hidx⟩ := chain_results_core flow_rate rho mu g ps _ rs2 hrest
        refine ⟨by simp [hlen], ?_⟩
        intro i hi
        cases i with
        | zero =>
          exact ⟨c, by simpa using hc, by simp [result_core, loss_core, mk_segment_result]⟩
        | succ j =>
          obtain ⟨c2, hc2, hj⟩ := hidx j (by simpa using Nat.succ_lt_succ_iff.mp hi)
          exact ⟨c2, by simpa using hc2, by simpa using hj⟩

/-! ### The claims -/

/-- C1: for every ordered segment sequence processed by the chain
propagation fold (running pressure initialised to `pressure_inlet`), the
recorded outlet pressure of segment `i` equals the recorded inlet
pressure of segment `i + 1`, at every internal junction. -/
theorem runChain_junction_continuity (pipes : List Pipe)
    (flow_rate rho mu g pressure_inlet : ℝ) (s : ChainState)
    (h : runChain pipes flow_rate rho mu g pressure_inlet = .ok s)
    (i : ℕ) (hi : i + 1 < s.pipe_results.length) :
    s.pipe_results[i].P_out = s.pipe_results[i + 1].P_in := by
  obtain ⟨cp, thl, tl, res⟩ := s
  obtain ⟨rs, hrs, hres, -, -, -⟩ := foldlM_run flow_rate rho mu g pipes _ _ h
  simp only [List.nil_append] at hres
  simp only at hres hi ⊢
  subst hres
  exact chain_ok_junction rho g _ pressure_inlet
    (chain_results_ok flow_rate rho mu g pipes _ _ hrs) i hi

/-- C2: every recorded row of the chain propagation satisfies
`P_out = P_in - h_total * rho * g`; in particular a row whose `h_total`
is `-10` has `P_out` exceeding `P_in` by exactly `rho * g * 10`. -/
theorem runChain_pressure_drop (pipes : List Pipe)
    (flow_rate rho mu g pressure_inlet : ℝ) (s : ChainState)
    (h : runChain pipes flow_rate rho mu g pressure_inlet = .ok s) :
    ∀ r ∈ s.pipe_results,
      r.P_out = r.P_in - r.h_total * rho * g ∧
      (r.h_total = -10 → r.P_out = r.P_in + rho * g * 10) := by
  obtain ⟨rs, hrs, hres, -, -, -⟩ := foldlM_run flow_rate rho mu g pipes _ s h
  have he : s.pipe_results = rs := by simpa using hres
  intro r hr
  have hdrop := chain_ok_drop rho g rs pressure_inlet
    (chain_results_ok flow_rate rho mu g pipes _ rs hrs) r (he ▸ hr)
  exact ⟨hdrop, fun h10 => by rw [hdrop, h10]; ring⟩

/-- C3: for every non-empty segment sequence the accumulated system
total head loss equals the sum of the recorded per-segment `h_total`
values, and the accumulated system length equals the sum of the
per-segment lengths. -/
theorem runChain_totals (pipes : List Pipe)
    (flow_rate rho mu g pressure_inlet : ℝ) (s : ChainState)
    (_hne : pipes ≠ [])
    (h : runChain pipes flow_rate rho mu g pressure_inlet = .ok s) :
    s.total_head_loss_system = (s.pipe_results.map SegmentResult.h_total).sum ∧
    s.total_length_system = (pipes.map Pipe.length).sum := by
  obtain ⟨rs, hrs, hres, hcur, hthl, htl⟩ := foldlM_run flow_rate rho mu g pipes _ s h
  have he : s.pipe_results = rs := by simpa using hres
  constructor
  · rw [he, hthl]; simp
  · rw [htl]; simp

/-- C5: when every recorded `h_total` is non-negative (density and
gravity being physically non-negative), pressure cannot increase along
the chain: every row has `P_out ≤ P_in`, and the final carried pressure
is at most `pressure_inlet`. -/
theorem runChain_pressure_nonincreasing (pipes : List Pipe)
    (flow_rate rho mu g pressure_inlet : ℝ) (s : ChainState)
    (hrho : 0 ≤ rho) (hg : 0 ≤ g)
    (h : runChain pipes flow_rate rho mu g pressure_inlet = .ok s)
    (hnn : ∀ r ∈ s.pipe_results, 0 ≤ r.h_total) :
    (∀ r ∈ s.pipe_results, r.P_out ≤ r.P_in) ∧
      s.current_pressure ≤ pressure_inlet := by
  obtain ⟨rs, hrs, hres, hcur, -, -⟩ := foldlM_run flow_rate rho mu g pipes _ s h
  have he : s.pipe_results = rs := by simpa using hres
  obtain ⟨h1, h2⟩ := chain_ok_monotone rho g hrho hg rs pressure_inlet
    (chain_results_ok flow_rate rho mu g pipes _ rs hrs)
    (fun r hr => hnn r (by rw [he]; exact hr))
  exact ⟨fun r hr => h1 r (he ▸ hr), by rw [hcur]; exact h2⟩

/-- C10: the final outlet pressure (the `P_out` of the last recorded
row) equals `pressure_inlet` minus `rho * g` times the sum of all the
recorded per-segment `h_total` values: the per-segment drops telescope. -/
theorem runChain_final_pressure (pipes : List Pipe)
    (flow_rate rho mu g pressure_inlet : ℝ) (s : ChainState)
    (h : runChain pipes flow_rate rho mu g pressure_inlet = .ok s)
    (r : SegmentResult) (hlast : s.pipe_results.getLast? = some r) :
    r.P_out = pressure_inlet
      - rho * g * (s.pipe_results.map SegmentResult.h_total).sum := by
  obtain ⟨rs, hrs, hres, hcur, -, -⟩ := foldlM_run flow_rate rho mu g pipes _ s h
  have he : s.pipe_results = rs := by simpa using hres
  have hl : last_out pressure_inlet rs = r.P_out :=
    last_out_getLast r rs pressure_inlet (he ▸ hlast)
  have htel := chain_ok_last rho g rs pressure_inlet
    (chain_results_ok flow_rate rho mu g pipes _ rs hrs)
  rw [he, ← hl, htel]; ring

/-- C7: the recorded fields of row `i` other than the pressures are
exactly the calculator's output on segment `i` with the one shared
flow rate, density, viscosity and gravity; hence two runs that agree on
segment `i` (whatever their other segments or inlet pressures) record
identical values for those fields of row `i`. -/
theorem runChain_segment_noninterference (pipes1 pipes2 : List Pipe)
    (flow_rate rho mu g pin1 pin2 : ℝ) (s1 s2 : ChainState)
    (h1 : runChain pipes1 flow_rate rho mu g pin1 = .ok s1)
    (h2 : runChain pipes2 flow_rate rho mu g pin2 = .ok s2)
    (i : ℕ) (hi1 : i < pipes1.length) (hi2 : i < pipes2.length)
    (heq : pipes1[i] = pipes2[i]) :
    (s1.pipe_results.map result_core)[i]?
        = (calculate_pipe_losses pipes1[i] flow_rate rho mu g).toOption.map loss_core ∧
    (s2.pipe_results.map result_core)[i]?
        = (s1.pipe_results.map result_core)[i]? := by
  obtain ⟨rs1, hrs1, hres1, -, -, -⟩ := foldlM_run flow_rate rho mu g pipes1 _ s1 h1
  obtain ⟨rs2, hrs2, hres2, -, -, -⟩ := foldlM_run flow_rate rho mu g pipes2 _ s2 h2
  have he1 : s1.pipe_results = rs1 := by simpa using hres1
  have he2 : s2.pipe_results = rs2 := by simpa using hres2
  obtain ⟨-, hidx1⟩ := chain_results_core flow_rate rho mu g pipes1 _ rs1 hrs1
  obtain ⟨-, hidx2⟩ := chain_results_core flow_rate rho mu g pipes2 _ rs2 hrs2
  obtain ⟨c1, hc1, hv1⟩ := hidx1 i hi1
  obtain ⟨c2, hc2, hv2⟩ := hidx2 i hi2
  have hcc : c1 = c2 := by
    have hc1b := hc1
    rw [heq] at hc1b
    rw [hc1b] at hc2
    exact (Except.ok.injEq _ _).mp hc2
  refine ⟨?_, ?_⟩
  · rw [he1, hv1, hc1]
    rfl
  · rw [he1, he2, hv1, hv2, hcc]

/-- C4: handed an empty segment sequence, the computation fails with the
domain error for an empty chain and produces no result at all. -/
theorem render_empty_chain_error (rho mu pressure_inlet : ℝ) (input_type : String)
    (flow_rate velocity g : ℝ) :
    render_pipe_system_tab [] rho mu pressure_inlet input_type flow_rate velocity g
        = .error DomainError.emptyChain ∧
    ∀ res : SystemResult,
      render_pipe_system_tab [] rho mu pressure_inlet input_type flow_rate velocity g
        ≠ .ok res :=
  ⟨rfl, fun _ h => by simp [render_pipe_system_tab] at h⟩

/-- C6: flow rate and inlet velocity round-trip through the first
segment's cross-sectional area: deriving the velocity from a given flow
rate and recomputing the flow rate returns the original exactly, and
symmetrically when the velocity is the given input. -/
theorem flow_velocity_roundtrip (p : Pipe) (hd : 0 < p.diameter) (q v : ℝ) :
    (derive_flow_and_velocity "Velocidade (V)" q
        (derive_flow_and_velocity "Vazão (Q)" q v p).2 p).1 = q ∧
    (derive_flow_and_velocity "Vazão (Q)"
        (derive_flow_and_velocity "Velocidade (V)" q v p).1 v p).2 = v := by
  have hA : Real.pi * (p.diameter / 2) ^ 2 ≠ 0 := by
    have hpi := Real.pi_pos
    positivity
  have hne : ("Velocidade (V)" : String) ≠ "Vazão (Q)" := by decide
  simp only [derive_flow_and_velocity, if_pos rfl, if_neg hne]
  exact ⟨div_mul_cancel₀ q hA, mul_div_cancel_right₀ v hA⟩

set_option linter.unnecessarySeqFocus false in
/-- C8: the warnings computation is a function from results to a list of
findings, one pass of the per-segment classification; for water a
below-minimum finding is produced exactly when `V < wmin` and an
above-maximum finding exactly when `V > wmax` (the bounds being ordered,
as the recommended water band is); for air an above-maximum finding
exactly when `V > amax`; a segment within range contributes nothing. -/
theorem velocity_advisory (results : List SegmentResult) (wmin wmax amax : ℝ)
    (hle : wmin ≤ wmax) :
    velocity_warnings results "Água" wmin wmax amax
        = results.filterMap (classify_water wmin wmax) ∧
    velocity_warnings results "Ar" wmin wmax amax
        = results.filterMap (classify_air amax) ∧
    ∀ r : SegmentResult,
      (classify_water wmin wmax r = some (.belowMin r.id r.V) ↔ r.V < wmin) ∧
      (classify_water wmin wmax r = some (.aboveMax r.id r.V) ↔ wmax < r.V) ∧
      (classify_water wmin wmax r = none ↔ wmin ≤ r.V ∧ r.V ≤ wmax) ∧
      (classify_air amax r = some (.aboveMax r.id r.V) ↔ amax < r.V) ∧
      (classify_air amax r = none ↔ r.V ≤ amax) := by
  refine ⟨by rw [velocity_warnings, if_pos rfl], ?_, ?_⟩
  · rw [velocity_warnings, if_neg (by decide), if_pos rfl]
  · intro r
    unfold classify_water classify_air
    refine ⟨?_, ?_, ?_, ?_, ?_⟩ <;>
      (split_ifs <;> simp_all) <;> try linarith

/-- A list reachable from `orig` by the session operations: still
non-empty, and the surviving original segments form an unchanged initial
run of `orig`, in their original order, followed only by later additions. -/
def reachable (orig cur : List Pipe) : Prop :=
  cur ≠ [] ∧ ∃ k, k ≤ orig.length ∧ ∃ extra, cur = orig.take k ++ extra

theorem apply_op_reachable (orig cur : List Pipe) (op : Op)
    (h : reachable orig cur) : reachable orig (apply_op cur op) := by
  obtain ⟨hne, k, hk, extra, hcur⟩ := h
  cases op with
  | add =>
    refine ⟨by simp [apply_op, add_segment], k, hk,
      extra ++ [new_pipe (next_id cur)], ?_⟩
    simp [apply_op, add_segment, hcur]
  | removeLast =>
    simp only [apply_op, remove_last]
    split_ifs with hlen
    · refine ⟨?_, ?_⟩
      · have : 0 < cur.dropLast.length := by
          rw [List.length_dropLast]; omega
        exact List.ne_nil_of_length_pos this
      · cases hex : extra with
        | nil =>
          subst hcur
          rw [hex, List.append_nil]
          refine ⟨k - 1, by omega, [], ?_⟩
          rw [List.append_nil, List.dropLast_eq_take, List.length_take,
            List.take_take]
          congr 1
          omega
        | cons e es =>
          refine ⟨k, hk, (e :: es).dropLast, ?_⟩
          rw [hcur, hex, List.dropLast_append_of_ne_nil _ (by simp)]
    · exact ⟨hne, k, hk, extra, hcur⟩

theorem foldl_apply_op_reachable (orig : List Pipe) :
    ∀ (ops : List Op) (cur : List Pipe), reachable orig cur →
      reachable orig (ops.foldl apply_op cur)
  | [], cur, h => h
  | op :: ops, cur, h => by
    rw [List.foldl_cons]
    exact foldl_apply_op_reachable orig ops (apply_op cur op)
      (apply_op_reachable orig cur op h)

/-- C9: adding appends the fresh default segment at the end, leaving
every existing position unchanged; removal is permitted only on lists of
more than one element and deletes exactly the last segment, never
emptying the list; consequently any sequence of add and remove
operations started from a non-empty list yields a non-empty list in
which the surviving original segments form an unchanged initial run of
the original order. -/
theorem segment_list_ops (orig : List Pipe) (ops : List Op) (hne : orig ≠ []) :
    (∀ (pipes : List Pipe) (i : ℕ), i < pipes.length →
        (add_segment pipes)[i]? = pipes[i]?) ∧
    (∀ pipes : List Pipe,
        (add_segment pipes).length = pipes.length + 1 ∧
        (add_segment pipes)[pipes.length]? = some (new_pipe (next_id pipes))) ∧
    (∀ pipes : List Pipe, 1 < pipes.length →
        remove_last pipes = pipes.dropLast ∧ remove_last pipes ≠ []) ∧
    (∀ pipes : List Pipe, pipes.length ≤ 1 → remove_last pipes = pipes) ∧
    ops.foldl apply_op orig ≠ [] ∧
    ∃ k, k ≤ orig.length ∧ ∃ extra,
      ops.foldl apply_op orig = orig.take k ++ extra := by
  have hreach := foldl_apply_op_reachable orig ops orig
    ⟨hne, orig.length, le_refl _, [], by simp⟩
  refine ⟨?_, ?_, ?_, ?_, hreach.1, hreach.2⟩
  · intro pipes i hi
    rw [add_segment, List.getElem?_append_left hi]
  · intro pipes
    refine ⟨by simp [add_segment], ?_⟩
    rw [add_segment]
    simp
  · intro pipes hlen
    refine ⟨by rw [remove_last, if_pos hlen], ?_⟩
    rw [remove_last, if_pos hlen]
    have : 0 < pipes.dropLast.length := by rw [List.length_dropLast]; omega
    exact List.ne_nil_of_length_pos this
  · intro pipes hlen
    rw [remove_last, if_neg (by omega)]

/-! ### Concrete evaluations -/

theorem calculate_pipe_losses_eval (p : Pipe) (flow_rate rho mu g V Re : ℝ)
    (hd : ¬ p.diameter ≤ 0) (hq : ¬ flow_rate < 0)
    (hV : V = flow_rate / (Real.pi * (p.diameter / 2) ^ 2))
    (hRe : Re = rho * V * p.diameter / mu)
    (h1 : Re < 2300) (h0 : ¬ Re ≤ 0) :
    calculate_pipe_losses p flow_rate rho mu g =
      .ok ⟨V, Re, "laminar", 64 / Re, aggregate_K p,
           64 / Re * (p.length / p.diameter) * V ^ 2 / (2 * g),
           aggregate_K p * V ^ 2 / (2 * g),
           p.elevation_change,
           64 / Re * (p.length / p.diameter) * V ^ 2 / (2 * g)
             + aggregate_K p * V ^ 2 / (2 * g) + p.elevation_change⟩ := by
  subst hV
  subst hRe
  simp only [calculate_pipe_losses, friction_factor, if_neg hd, if_neg hq,
    if_pos h1, if_neg h0]

/-- First concrete segment: unit diameter, zero length, no elevation
change, no fittings. -/
noncomputable def pA : Pipe :=
  ⟨1, "Aço comercial", 1, 0, 0, false, false, false, 0,
   false, false, false, false, false, false, 0, 0⟩

/-- Second concrete segment: as `pA` but descending ten metres. -/
noncomputable def pB : Pipe :=
  ⟨2, "Aço comercial", 1, 0, -10, false, false, false, 0,
   false, false, false, false, false, false, 0, 0⟩

/-- Calculator output on `pA` with unit flow, density and viscosity. -/
noncomputable def cA : LossResult :=
  ⟨4 / Real.pi, 4 / Real.pi, "laminar", 16 * Real.pi, 0, 0, 0, 0, 0⟩

/-- Calculator output on `pB` with the same fluid and flow. -/
noncomputable def cB : LossResult :=
  ⟨4 / Real.pi, 4 / Real.pi, "laminar", 16 * Real.pi, 0, 0, 0, -10, -10⟩

theorem re_small : (4 : ℝ) / Real.pi < 2300 := by
  have h3 := Real.pi_gt_three
  rw [div_lt_iff₀ (by linarith)]
  nlinarith

theorem re_pos : ¬ ((4 : ℝ) / Real.pi ≤ 0) := by
  have h3 := Real.pi_gt_three
  push_neg
  positivity

theorem calc_pA : calculate_pipe_losses pA 1 1 1 10 = Except.ok cA := by
  have hπ : Real.pi ≠ 0 := Real.pi_ne_zero
  have h := calculate_pipe_losses_eval pA 1 1 1 10 (4 / Real.pi) (4 / Real.pi)
    (by norm_num [pA]) (by norm_num)
    (by simp only [pA]; rw [eq_div_iff (by positivity)]; field_simp; ring)
    (by simp only [pA]; ring)
    re_small re_pos
  rw [h]
  refine congrArg Except.ok ?_
  have h16 : (64 : ℝ) / (4 / Real.pi) = 16 * Real.pi := by
    rw [div_div_eq_mul_div]; ring
  simp only [cA, pA, LossResult.mk.injEq, h16]
  norm_num [aggregate_K, pA]

theorem calc_pB : calculate_pipe_losses pB 1 1 1 10 = Except.ok cB := by
  have hπ : Real.pi ≠ 0 := Real.pi_ne_zero
  have h := calculate_pipe_losses_eval pB 1 1 1 10 (4 / Real.pi) (4 / Real.pi)
    (by norm_num [pB]) (by norm_num)
    (by simp only [pB]; rw [eq_div_iff (by positivity)]; field_simp; ring)
    (by simp only [pB]; ring)
    re_small re_pos
  rw [h]
  refine congrArg Except.ok ?_
  have h16 : (64 : ℝ) / (4 / Real.pi) = 16 * Real.pi := by
    rw [div_div_eq_mul_div]; ring
  simp only [cB, pB, LossResult.mk.injEq, h16]
  norm_num [aggregate_K, pB]

/-- Row recorded for `pA` when the inlet pressure is 100. -/
noncomputable def rA : SegmentResult :=
  ⟨1, 4 / Real.pi, 4 / Real.pi, "laminar", 16 * Real.pi, 0, 0, 0, 0, 100, 100, 0⟩

/-- Row recorded for `pB` after `pA`: the ten-metre descent raises the
pressure from 100 to 200 (with unit density and gravity 10). -/
noncomputable def rB : SegmentResult :=
  ⟨2, 4 / Real.pi, 4 / Real.pi, "laminar", 16 * Real.pi, 0, 0, -10, -10, 100, 200, 0⟩

/-- Final loop state on `[pA, pB]`. -/
noncomputable def stateAB : ChainState := ⟨200, -10, 0, [rA, rB]⟩

/-- Final loop state on `[pA]` alone. -/
noncomputable def stateA : ChainState := ⟨100, 0, 0, [rA]⟩

theorem step_A : step_pipe 1 1 1 10 ⟨100, 0, 0, []⟩ pA = .ok ⟨100, 0, 0, [rA]⟩ := by
  simp only [step_pipe, calc_pA]
  norm_num [cA, mk_segment_result, pA, rA]

theorem step_B : step_pipe 1 1 1 10 ⟨100, 0, 0, [rA]⟩ pB
    = .ok ⟨200, -10, 0, [rA, rB]⟩ := by
  simp only [step_pipe, calc_pB]
  norm_num [cB, mk_segment_result, pB, rB]

theorem run_AB : runChain [pA, pB] 1 1 1 10 100 = Except.ok stateAB := by
  rw [runChain, List.foldlM_cons, step_A, except_ok_bind, List.foldlM_cons,
    step_B, except_ok_bind, List.foldlM_nil]
  rfl

theorem run_A : runChain [pA] 1 1 1 10 100 = Except.ok stateA := by
  rw [runChain, List.foldlM_cons, step_A, except_ok_bind, List.foldlM_nil]
  rfl

/-! ### Witnesses -/

/-- Witness for C1 at the two-segment run: the outlet of the first row
equals the inlet of the second. -/
theorem runChain_junction_continuity_witness : rA.P_out = rB.P_in := by
  have h := runChain_junction_continuity [pA, pB] 1 1 1 10 100 stateAB run_AB 0
    (by simp [stateAB])
  simpa [stateAB] using h

/-- Witness for C2: the second row of the two-segment run has
`h_total = -10` and an outlet pressure exceeding its inlet pressure by
`rho * g * 10 = 100`. -/
theorem runChain_pressure_drop_witness :
    rB.h_total = -10 ∧ rB.P_out = rB.P_in + 1 * 10 * 10 := by
  have h := runChain_pressure_drop [pA, pB] 1 1 1 10 100 stateAB run_AB rB
    (by simp [stateAB])
  exact ⟨rfl, h.2 rfl⟩

/-- Witness for C3 at the two-segment run. -/
theorem runChain_totals_witness :
    stateAB.total_head_loss_system
        = (stateAB.pipe_results.map SegmentResult.h_total).sum ∧
    stateAB.total_length_system = (([pA, pB]).map Pipe.length).sum :=
  runChain_totals [pA, pB] 1 1 1 10 100 stateAB (by simp) run_AB

/-- Witness for C5 at the single-segment run, whose one `h_total` is 0. -/
theorem runChain_pressure_nonincreasing_witness :
    (∀ r ∈ stateA.pipe_results, r.P_out ≤ r.P_in) ∧
      stateA.current_pressure ≤ 100 :=
  runChain_pressure_nonincreasing [pA] 1 1 1 10 100 stateA (by norm_num)
    (by norm_num) run_A (by
      intro r hr
      simp only [stateA, List.mem_singleton] at hr
      subst hr
      norm_num [rA])

/-- Witness for C6 on the unit-diameter segment with flow 2 and
velocity 3. -/
theorem flow_velocity_roundtrip_witness :
    (derive_flow_and_velocity "Velocidade (V)" 2
        (derive_flow_and_velocity "Vazão (Q)" 2 3 pA).2 pA).1 = 2 ∧
    (derive_flow_and_velocity "Vazão (Q)"
        (derive_flow_and_velocity "Velocidade (V)" 2 3 pA).1 3 pA).2 = 3 :=
  flow_velocity_roundtrip pA (by norm_num [pA]) 2 3

/-- Witness for C7: the first row of the two-segment run carries exactly
the calculator's output on `pA`. -/
theorem runChain_segment_noninterference_witness :
    (stateAB.pipe_results.map result_core)[0]?
        = (calculate_pipe_losses pA 1 1 1 10).toOption.map loss_core := by
  have h := runChain_segment_noninterference [pA, pB] [pA, pB] 1 1 1 10 100 100
    stateAB stateAB run_AB run_AB 0 (by simp) (by simp) rfl
  simpa using h.1

/-- Witness for C8 with the recommended water band 0.5 to 3 and the air
limit 20. -/
theorem velocity_advisory_witness :
    velocity_warnings [rA] "Água" 0.5 3 20
        = [rA].filterMap (classify_water 0.5 3) ∧
    velocity_warnings [rA] "Ar" 0.5 3 20 = [rA].filterMap (classify_air 20) :=
  ⟨(velocity_advisory [rA] 0.5 3 20 (by norm_num)).1,
   (velocity_advisory [rA] 0.5 3 20 (by norm_num)).2.1⟩

/-- Witness for C9: one addition followed by one removal, starting from
the singleton list, never empties it. -/
theorem segment_list_ops_witness :
    [Op.add, Op.removeLast].foldl apply_op [pA] ≠ [] :=
  (segment_list_ops [pA] [Op.add, Op.removeLast] (by simp)).2.2.2.2.1

/-- Witness for C10 at the two-segment run: the last outlet pressure is
`100 - 1 * 10 * (-10) = 200`. -/
theorem runChain_final_pressure_witness :
    rB.P_out = 100 - 1 * 10 * (stateAB.pipe_results.map SegmentResult.h_total).sum :=
  runChain_final_pressure [pA, pB] 1 1 1 10 100 stateAB run_AB rB
    (by simp [stateAB])
